import Mathlib

/-
  Verification of the type-casting core in `include/pybind/cast.h` (early
  pybind): the generic heap-object caster, the ownership-policy handling, the
  process-wide type/instance registries, the recursive container/tuple casters
  and the call marshaller.

  The embedding is shallow: every definition below is translated directly from
  the corresponding C++ function in `cast.h`.  Host-interpreter primitives
  (`PyLong_AsLong`, `PyList_GetItem`, `Py_INCREF`, ...) are modelled by their
  documented semantics.  Machine integers are `Int` with explicit wrap-around
  where the C++ performs a narrowing conversion.  A raised C++ exception is
  `Except.error`; a CPython `nullptr`-with-error return is `Option.none`.
-/

namespace PybindCast

/-! ## Host object model (value level)

A dynamic value of the host object model, as observed by the value-level
casters (`type_caster<int32_t>`, `type_caster<std::vector<V>>`,
`type_caster<std::tuple<...>>`, `type_caster<char>`).  Host strings are kept at
the UTF-8 byte level (`PyUnicode_AsUTF8` hands the caster a byte buffer); a
string the UTF-8 encoder rejects is a separate constructor. -/
inductive DValue where
  | vnone
  | vint (n : Int)
  | vstr (bytes : List Nat)
  | vstrUndecodable
  | vlist (elems : List DValue)
  | vtuple (elems : List DValue)

/-- `PyLong_AsLong`: succeeds exactly on a host integer that fits a C `long`
(64-bit two's complement); anything else returns `-1` with the error state
raised, which the numeric caster maps to a load failure. -/
def pyLongAsLong : DValue → Option Int
  | DValue.vint n =>
      if -9223372036854775808 ≤ n ∧ n < 9223372036854775808 then some n else none
  | _ => none

/-- Narrowing conversion from C `long` to `int32_t` (`value = (type) from_type(src)`
in `PYBIND_TYPE_CASTER_NUMBER`): two's-complement wrap-around into
`[-2^31, 2^31)`. -/
def toSigned32 (n : Int) : Int :=
  (n + 2147483648) % 4294967296 - 2147483648

/-- `type_caster<int32_t>::load` (macro `PYBIND_TYPE_CASTER_NUMBER`): parse via
`PyLong_AsLong`, narrow to `int32_t`; a `-1` return with the error state raised
clears the error and fails.  `some v` bundles the `true` return together with
the `value` member the caster exposes. -/
def int32Load (src : DValue) : Option Int :=
  match pyLongAsLong src with
  | none => none
  | some n => some (toSigned32 n)

/-- `type_caster<int32_t>::cast`: `PyLong_FromLong((long) src)`; never fails,
the `int32_t` value embeds unchanged in a host integer. -/
def int32Cast (n : Int) : DValue :=
  DValue.vint n

/-! ## Sequence caster (`type_caster<std::vector<Value>>`) -/

/-- Loop body of `type_caster<std::vector<Value>>::load`: for each element a
fresh element caster is loaded (`conv.load`) and its value appended
(`value.push_back((Value) conv)`); the first failing element returns `false`
immediately, leaving the elements pushed so far in the `value` member. -/
def vectorLoadAux {α : Type} (el : DValue → Option α) :
    List DValue → List α → Bool × List α
  | [], acc => (true, acc)
  | x :: t, acc =>
    match el x with
    | none => (false, acc)
    | some v => vectorLoadAux el t (acc ++ [v])

/-- `type_caster<std::vector<Value>>::load`, parameterised by the element
caster's load `el`: fails unless the source is the host's list; otherwise loads
each element in order.  The returned pair is the `bool` result together with
the `value` member (the native vector under construction). -/
def vectorLoad {α : Type} (el : DValue → Option α) (src : DValue) : Bool × List α :=
  match src with
  | DValue.vlist xs => vectorLoadAux el xs []
  | _ => (false, [])

/-- `pybind::cast<T>(PyObject *)` (the external entry point, line 522): runs
`load` with conversion enabled and throws `cast_error` when it returns `false`;
only a successful load ever exposes the caster's `value` member.  Specialised
to a vector target. -/
def pybindCastVector {α : Type} (el : DValue → Option α) (src : DValue) :
    Except String (List α) :=
  let r := vectorLoad el src
  if r.1 then Except.ok r.2
  else Except.error "Unable to cast Python object to C++ type"

/-- Loop body of `type_caster<std::vector<Value>>::cast`: each native element
is cast (`value_conv::cast`); a `nullptr` element releases the list built so
far and returns `nullptr`. -/
def vectorCastAux {α : Type} (ec : α → Option DValue) :
    List α → List DValue → Option (List DValue)
  | [], acc => some acc
  | x :: t, acc =>
    match ec x with
    | none => none
    | some v => vectorCastAux ec t (acc ++ [v])

/-- `type_caster<std::vector<Value>>::cast`, parameterised by the element
caster's cast `ec`. -/
def vectorCast {α : Type} (ec : α → Option DValue) (xs : List α) : Option DValue :=
  (vectorCastAux ec xs []).map DValue.vlist

/-! ## Fixed-arity tuple caster (`type_caster<std::tuple<Tuple...>>`) -/

/-- The `for (bool r : results) if (!r) return false; return true;` loop of the
tuple caster's load. -/
def allTrue : List Bool → Bool
  | [] => true
  | r :: rs => if r then allTrue rs else false

/-- `type_caster<std::tuple<Tuple...>>::load`: fails unless the source is the
host's tuple of exactly the expected arity; otherwise the pack expansion
`std::get<Indices>(value).load(PyTuple_GetItem(src, Indices), convert)...`
evaluates EVERY element load into the `results` array, and the result is true
iff every entry is.  Element casters are abstracted as boolean loaders; the
second component is the `results` array (empty when no element was attempted). -/
def tupleLoad (loaders : List (DValue → Bool)) (src : DValue) : Bool × List Bool :=
  match src with
  | DValue.vtuple xs =>
    if xs.length = loaders.length then
      let results := List.zipWith (fun l x => l x) loaders xs
      (allTrue results, results)
    else (false, [])
  | _ => (false, [])

/-! ## Single-character caster (`type_caster<char>`) -/

/-- `PyUnicode_AsUTF8`: the NUL-terminated UTF-8 byte buffer of a host string,
or `nullptr` (here `none`) when the value is not a string or its content cannot
be UTF-8-encoded. -/
def pyUnicodeAsUTF8 : DValue → Option (List Nat)
  | DValue.vstr bs => some bs
  | _ => none

/-- `type_caster<char>::load`: succeeds exactly when `PyUnicode_AsUTF8`
succeeds (clearing the raised error otherwise); the decoded buffer becomes the
`value` pointer.  No length check is performed. -/
def charLoad (src : DValue) : Bool :=
  (pyUnicodeAsUTF8 src).isSome

/-- `type_caster<char>::operator char()` after a successful load: `*value`,
the first byte of the decoded buffer (the NUL terminator, byte `0`, for the
empty string). -/
def charValue (src : DValue) : Option Nat :=
  (pyUnicodeAsUTF8 src).map (fun bs => bs.headD 0)

/-! ## Generic heap caster: `type_caster<type>::load`

`load` only inspects a dynamic value through `Py_TYPE(src)` (its runtime type)
and, on success, `((instance_type *) src)->value` (the wrapped native pointer).
Runtime types are abstract ids (`Nat`); `PyType_IsSubtype` is an abstract
boolean relation `sub` passed explicitly. -/

/-- An instance-shaped dynamic value as seen by `type_caster<type>::load`:
its runtime type and its wrapped native pointer. -/
structure HObj where
  rtype : Nat
  value : Nat

/-- The part of the registered `type_info` consulted by `load`: the dynamic
type handle and the ordered list of implicit-conversion functions.  A converter
is called as `converter(src, typeinfo->type)` and returns a new dynamic value
or `nullptr`. -/
structure LoadTypeInfo where
  ty : Nat
  implicit_conversions : List (HObj → Nat → Option HObj)

/-- The direct-match branch of `load`: `PyType_IsSubtype(Py_TYPE(src),
typeinfo->type)` binds `value` to the wrapped pointer. -/
def loadDirect (sub : Nat → Nat → Bool) (t : LoadTypeInfo) (s : HObj) : Option Nat :=
  if sub s.rtype t.ty then some s.value else none

/-- `type_caster<type>::load` specialised to `convert = false`, i.e. the
recursive call `load(temp.ptr(), false)` made on each conversion result: fails
on `nullptr` or a missing registry entry, otherwise only the direct runtime
type check is performed (conversions are never chained). -/
def loadNoConvert (sub : Nat → Nat → Bool) (ti : Option LoadTypeInfo)
    (src : Option HObj) : Option Nat :=
  match src, ti with
  | none, _ => none
  | _, none => none
  | some s, some t => loadDirect sub t s

/-- The `for (auto &converter : typeinfo->implicit_conversions)` loop of
`load`: each converter is applied to the original `src`; its result (possibly
`nullptr`) is re-loaded with conversion disabled; the first success wins. -/
def tryConversions (sub : Nat → Nat → Bool) (t : LoadTypeInfo) (s : HObj) :
    List (HObj → Nat → Option HObj) → Option Nat
  | [] => none
  | c :: cs =>
    match loadNoConvert sub (some t) (c s t.ty) with
    | some v => some v
    | none => tryConversions sub t s cs

/-- `type_caster<type>::load(PyObject *src, bool convert)`.  `ti` is the
`typeinfo` member (null when the constructor found no registry entry for the
type); `some v` bundles the `true` return with the bound `value` member.  The
model is pure: the failing paths perform no side effect, exactly as in the
source. -/
def genericLoad (sub : Nat → Nat → Bool) (ti : Option LoadTypeInfo)
    (src : Option HObj) (convert : Bool) : Option Nat :=
  match src, ti with
  | none, _ => none
  | _, none => none
  | some s, some t =>
    match loadDirect sub t s with
    | some v => some v
    | none =>
      if convert then tryConversions sub t s t.implicit_conversions else none

/-! ## Generic heap caster: `type_caster<type>::cast` and `handle::call`

The cast path manipulates interpreter-wide state: the two registries of
`get_internals()`, the host heap of reference-counted objects, and (for the
`copy` policy) the native heap.  Object ids, native pointers and type identity
keys are `Nat` (`type_id<type>()`'s stable string key is modelled as an
abstract id).  `Py_None` is the distinguished object id `0`. -/

/-- `return_value_policy`. -/
inductive RVP where
  | automatic
  | copy
  | reference
  | reference_internal
  | take_ownership
deriving DecidableEq

/-- A host-heap object.  For an `instance<type>` the fields `value`, `owned`,
`parent` are the wrapper fields set by `cast`; for non-instance objects
(`Py_None`, tuples, opaque call results) the unused fields keep their
defaults.  `elems` holds the stolen element references of a tuple
(`PyTuple_SetItem`). -/
structure PyObj where
  rc : Nat := 1
  value : Nat := 0
  owned : Bool := false
  parent : Option Nat := none
  rtype : Nat := 0
  elems : List Nat := []
deriving DecidableEq

/-- Modelled from the spec: the registered Type Descriptor as consulted by the
cast path — only its dynamic-type handle is read there (`type_info::type`);
the `init_holder` hook is an external collaborator invoked once on the fresh
object and has no effect on the caster's own state (registries, refcounts,
wrapped pointer), so it is modelled as a no-op.  (The `type_info` struct
itself lives in a header outside this repository's source.) -/
structure TypeInfoC where
  ty : Nat
deriving DecidableEq

/-- Modelled from the spec: the interpreter-wide state reachable from
`get_internals()` (Type Registry, Instance Registry), together with the host
heap of reference-counted objects, the native heap (for `new T(*ptr)` under the
`copy` policy), allocation counters, the raised-error slot (`PyErr_SetString`)
and a flag recording whether a dynamic callable was ever invoked
(`PyObject_CallObject`). -/
structure CastState where
  registered_types : List (Nat × TypeInfoC) := []
  registered_instances : List (Nat × Nat) := []
  heap : List (Nat × PyObj) := []
  nheap : List (Nat × Int) := []
  nextId : Nat := 1
  nextPtr : Nat := 1
  err : Option String := none
  called : Bool := false
deriving DecidableEq

/-- Association-list lookup (`std::map::find`). -/
def lookupA {κ α : Type} [DecidableEq κ] (k : κ) : List (κ × α) → Option α
  | [] => none
  | e :: t => if e.1 = k then some e.2 else lookupA k t

/-- Association-list insert-or-overwrite (`std::map::operator[] =`). -/
def setA {κ α : Type} [DecidableEq κ] (k : κ) (v : α) :
    List (κ × α) → List (κ × α)
  | [] => [(k, v)]
  | e :: t => if e.1 = k then (k, v) :: t else e :: setA k v t

/-- Adjust the reference count of one heap entry. -/
def mapRc (f : Nat → Nat) (i : Nat) (h : List (Nat × PyObj)) : List (Nat × PyObj) :=
  h.map (fun e => if e.1 = i then (e.1, { e.2 with rc := f e.2.rc }) else e)

/-- `Py_INCREF`. -/
def increfObj (i : Nat) (h : List (Nat × PyObj)) : List (Nat × PyObj) :=
  mapRc (fun n => n + 1) i h

/-- `Py_XDECREF`: decrement the count when the argument is non-null.
(Destruction at count zero is carried out by the host model and is outside the
caster; a count of zero means the value is no longer referenced.) -/
def xdecrefObj (r : Option Nat) (h : List (Nat × PyObj)) : List (Nat × PyObj) :=
  match r with
  | none => h
  | some i => mapRc (fun n => n - 1) i h

/-- `((instance<void> *) parent)->value`: the wrapped pointer of the parent
object (`none` when `parent` is null). -/
def parentValue (st : CastState) (parent : Option Nat) : Option Nat :=
  parent.bind (fun pid => (lookupA pid st.heap).map PyObj.value)

/-- `handle_return_value_policy<T>` (both overloads, lines 95-119).
`copyable` is the compile-time `std::is_copy_constructible<T>` selecting the
overload.  `copy` allocates a fresh native value holding a copy of the wrapped
one and repoints `inst->value` at it; on a non-copyable type it throws
`cast_error`.  `reference` clears `owned`; `reference_internal` clears `owned`,
stores the parent and `Py_XINCREF`s it; `take_ownership` (and a residual
`automatic`) change nothing. -/
def handle_return_value_policy (copyable : Bool) (inst : PyObj) (policy : RVP)
    (parent : Option Nat) (st : CastState) : Except String (PyObj × CastState) :=
  match policy with
  | RVP.copy =>
    if copyable then
      let q := st.nextPtr
      let copied := (lookupA inst.value st.nheap).getD 0
      Except.ok ({ inst with value := q },
        { st with nheap := setA q copied st.nheap, nextPtr := q + 1 })
    else Except.error "return_value_policy = copy, but the object is non-copyable!"
  | RVP.reference => Except.ok ({ inst with owned := false }, st)
  | RVP.reference_internal =>
    Except.ok ({ inst with owned := false, parent := parent },
      match parent with
      | some pid => { st with heap := increfObj pid st.heap }
      | none => st)
  | _ => Except.ok (inst, st)

/-- The allocation tail of `type_caster<type>::cast` (lines 74-92), reached
when the instance-registry lookup did not return: look up the Type Descriptor
(`PyErr_SetString` + `nullptr` when absent), `PyType_GenericAlloc` a fresh
object with `value = src`, `owned = true`, `parent = null`, resolve
`automatic` to `take_ownership`, apply the policy (a thrown `cast_error`
leaves the fresh object allocated but unreachable), run the external
`init_holder` hook, and cache `inst->value → inst` unless `dont_cache`. -/
def castFresh (tn : Nat) (copyable : Bool) (p : Nat) (policy : RVP)
    (parent : Option Nat) (dont_cache : Bool) (st : CastState) :
    Except String (Option Nat) × CastState :=
  match lookupA tn st.registered_types with
  | none =>
    (Except.ok none,
      { st with err := some ("Unregistered type : " ++ Nat.repr tn) })
  | some ti =>
    let id := st.nextId
    let inst0 : PyObj :=
      { rc := 1, value := p, owned := true, parent := none, rtype := ti.ty }
    let stA := { st with nextId := id + 1 }
    let policy1 := if policy = RVP.automatic then RVP.take_ownership else policy
    match handle_return_value_policy copyable inst0 policy1 parent stA with
    | Except.error e =>
      (Except.error e, { stA with heap := setA id inst0 stA.heap })
    | Except.ok (inst1, st1) =>
      let st2 := { st1 with heap := setA id inst1 st1.heap }
      let st3 :=
        if dont_cache then st2
        else { st2 with registered_instances := setA inst1.value id st2.registered_instances }
      (Except.ok (some id), st3)

/-- `type_caster<type>::cast(const type *_src, policy, parent)` (lines 58-93)
for the type registered under key `tn` with copy-constructibility `copyable`.
A null pointer casts to `Py_None` (incref'd).  Otherwise `dont_cache` is the
self-reference exception, the Instance Registry is consulted (a hit returns
the cached object with its count incremented, unless `dont_cache`), and the
allocation tail runs. -/
def type_caster_cast (tn : Nat) (copyable : Bool) (src : Option Nat)
    (policy : RVP) (parent : Option Nat) (st : CastState) :
    Except String (Option Nat) × CastState :=
  match src with
  | none => (Except.ok (some 0), { st with heap := increfObj 0 st.heap })
  | some p =>
    let dont_cache : Bool :=
      decide (policy = RVP.reference_internal ∧ parentValue st parent = some p)
    match lookupA p st.registered_instances with
    | some objId =>
      if dont_cache then castFresh tn copyable p policy parent dont_cache st
      else (Except.ok (some objId), { st with heap := increfObj objId st.heap })
    | none => castFresh tn copyable p policy parent dont_cache st

/-- Overwrite the native value stored at pointer `p` (mutation of the original
native object, performed by native code outside the caster). -/
def mutateNative (p : Nat) (w : Int) (st : CastState) : CastState :=
  { st with nheap := setA p w st.nheap }

/-! ### `handle::call` (lines 537-560) -/

/-- One argument of `handle::call`, marshalled through the generic heap
caster's pointer overload: its type identity key, its compile-time
copy-constructibility, and the native pointer. -/
def ArgSpec : Type := Nat × Bool × Option Nat

/-- One element of the argument-array initialisation of `handle::call`:
`type_caster<...>::cast(arg, return_value_policy::automatic, nullptr)`.  (With
`automatic` policy the policy application cannot throw, so the `Except.error`
branch is unreachable; it is mapped to the `nullptr` outcome for totality.) -/
def castArg (a : ArgSpec) (st : CastState) : Option Nat × CastState :=
  match type_caster_cast a.1 a.2.1 a.2.2 RVP.automatic none st with
  | (Except.ok r, st1) => (r, st1)
  | (Except.error _, st1) => (none, st1)

/-- The argument-array initialisation of `handle::call`: every argument is
cast, in order, before any failure check happens. -/
def marshal : List ArgSpec → CastState → List (Option Nat) × CastState
  | [], st => ([], st)
  | a :: t, st =>
    let r := castArg a st
    let rest := marshal t r.2
    (r.1 :: rest.1, rest.2)

/-- `handle::call(Args&&... args_)`: cast every argument; if any produced
`nullptr`, `Py_XDECREF` every produced value and throw `cast_error` — the
callable is never invoked.  Otherwise build the positional tuple
(`PyTuple_SetItem` steals the argument references), invoke the callable
(`PyObject_CallObject`, modelled as setting the `called` flag and producing a
fresh opaque result object, the callable itself being external), and release
the tuple. -/
def handle_call (args : List ArgSpec) (st : CastState) :
    Except String Nat × CastState :=
  let m := marshal args st
  if m.1.any Option.isNone then
    (Except.error "handle::call(): unable to convert input arguments to Python objects",
      { m.2 with heap := m.1.foldl (fun h r => xdecrefObj r h) m.2.heap })
  else
    let tid := m.2.nextId
    let st2 := { m.2 with
      heap := setA tid { rc := 1, elems := m.1.map (fun r => Option.getD r 0) } m.2.heap,
      nextId := tid + 1 }
    let rid := st2.nextId
    let st3 := { st2 with
      heap := setA rid { rc := 1 } st2.heap, nextId := rid + 1, called := true }
    (Except.ok rid, { st3 with heap := xdecrefObj (some tid) st3.heap })

/-! ## Helper lemmas: value-level casters -/

theorem allTrue_iff (l : List Bool) : allTrue l = true ↔ ∀ b ∈ l, b = true := by
  induction l with
  | nil => simp [allTrue]
  | cons r rs ih => cases r <;> simp [allTrue, ih]

theorem allTrue_zipWith_iff (loaders : List (DValue → Bool)) (xs : List DValue)
    (h : xs.length = loaders.length) :
    allTrue (List.zipWith (fun l x => l x) loaders xs) = true ↔
      List.Forall₂ (fun l x => l x = true) loaders xs := by
  induction loaders generalizing xs with
  | nil =>
    cases xs with
    | nil => simp [allTrue]
    | cons x xt => simp at h
  | cons l t ih =>
    cases xs with
    | nil => simp at h
    | cons x xt =>
      have h' : xt.length = t.length := by simpa using h
      cases hl : l x <;>
        simp [List.zipWith, allTrue, hl, List.forall₂_cons, ih xt h']

theorem vectorLoadAux_true_iff {α : Type} (el : DValue → Option α)
    (xs : List DValue) (acc : List α) :
    (vectorLoadAux el xs acc).1 = true ↔ ∀ x ∈ xs, (el x).isSome := by
  induction xs generalizing acc with
  | nil => simp [vectorLoadAux]
  | cons x t ih =>
    cases hv : el x with
    | none => simp [vectorLoadAux, hv]
    | some v => simp [vectorLoadAux, hv, ih]

theorem vectorLoadAux_success {α : Type} (el : DValue → Option α)
    (xs : List DValue) (acc : List α) (h : ∀ x ∈ xs, (el x).isSome) :
    vectorLoadAux el xs acc = (true, acc ++ xs.filterMap el) := by
  induction xs generalizing acc with
  | nil => simp [vectorLoadAux]
  | cons x t ih =>
    obtain ⟨v, hv⟩ := Option.isSome_iff_exists.mp (h x (List.mem_cons_self x t))
    have ht : ∀ y ∈ t, (el y).isSome := fun y hy => h y (List.mem_cons_of_mem x hy)
    simp [vectorLoadAux, hv, ih _ ht, List.filterMap_cons]

theorem vectorLoadAux_stop {α : Type} (el : DValue → Option α)
    (pre : List DValue) (x : DValue) (post : List DValue) (acc : List α)
    (hpre : ∀ y ∈ pre, (el y).isSome) (hx : el x = none) :
    vectorLoadAux el (pre ++ x :: post) acc = (false, acc ++ pre.filterMap el) := by
  induction pre generalizing acc with
  | nil => simp [vectorLoadAux, hx]
  | cons y t ih =>
    obtain ⟨v, hv⟩ := Option.isSome_iff_exists.mp (hpre y (List.mem_cons_self y t))
    have ht : ∀ z ∈ t, (el z).isSome := fun z hz => hpre z (List.mem_cons_of_mem y hz)
    simp [vectorLoadAux, hv, ih _ ht, List.filterMap_cons]

theorem vectorCastAux_total {α : Type} (ec : α → DValue) (xs : List α)
    (acc : List DValue) :
    vectorCastAux (fun a => some (ec a)) xs acc = some (acc ++ xs.map ec) := by
  induction xs generalizing acc with
  | nil => simp [vectorCastAux]
  | cons x t ih => simp [vectorCastAux, ih]

theorem toSigned32_id (x : Int) (h1 : -2147483648 ≤ x) (h2 : x < 2147483648) :
    toSigned32 x = x := by
  have h3 : (x + 2147483648) % 4294967296 = x + 2147483648 :=
    Int.emod_eq_of_lt (by omega) (by omega)
  simp only [toSigned32]
  omega

theorem int32Load_vint (x : Int) (h1 : -2147483648 ≤ x) (h2 : x < 2147483648) :
    int32Load (DValue.vint x) = some x := by
  have hr : -9223372036854775808 ≤ x ∧ x < 9223372036854775808 := ⟨by omega, by omega⟩
  simp [int32Load, pyLongAsLong, hr, toSigned32_id x h1 h2]

theorem filterMap_int32Load_map (xs : List Int)
    (h : ∀ x ∈ xs, -2147483648 ≤ x ∧ x < 2147483648) :
    List.filterMap int32Load (xs.map int32Cast) = xs := by
  induction xs with
  | nil => simp
  | cons x t ih =>
    have hx := h x (List.mem_cons_self x t)
    have ht : ∀ y ∈ t, -2147483648 ≤ y ∧ y < 2147483648 :=
      fun y hy => h y (List.mem_cons_of_mem x hy)
    simp [int32Cast, List.filterMap_cons, int32Load_vint x hx.1 hx.2, ih ht]

/-! ## Claim theorems: value-level casters -/

/-- C9 counterexample: the single-character caster's load succeeds on the
two-element decoded string "ab", although the claim states that strings not
consisting of exactly one element are load failures — `type_caster<char>::load`
performs no length check. -/
theorem char_caster_two_element_load_succeeds :
    charLoad (DValue.vstr [97, 98]) = true ∧ ([97, 98] : List Nat).length = 2 :=
  ⟨rfl, rfl⟩

/-- C9 (amended): the single-character caster's load succeeds exactly when the
dynamic value is a decodable string (of any length, the one-element case
included); it then yields the first element of the decoded buffer as the
native character (the NUL byte for the empty string); undecodable strings and
non-strings are load failures. -/
theorem char_caster_load_contract (src : DValue) :
    (charLoad src = true ↔ ∃ bs, src = DValue.vstr bs) ∧
    (∀ bs, src = DValue.vstr bs → charValue src = some (bs.headD 0)) := by
  constructor
  · cases src <;> simp [charLoad, pyUnicodeAsUTF8]
  · rintro bs rfl
    rfl

/-- C9 witness: the one-element string "h" loads and yields its element. -/
theorem char_caster_load_contract_witness :
    charValue (DValue.vstr [104]) = some 104 :=
  (char_caster_load_contract (DValue.vstr [104])).2 [104] rfl

/-- C10: the fixed-arity tuple caster's load succeeds exactly when the value is
the host's tuple of the expected arity all of whose elements load (first
conjunct); on an arity-matching tuple every element caster observes its input
— the `results` trace covers every position, failing positions included
(second conjunct); an arity mismatch or a non-tuple fails before any element
load is attempted, with an empty trace (last two conjuncts). -/
theorem tuple_load_exhaustive_all_or_nothing
    (loaders : List (DValue → Bool)) (src : DValue) :
    ((tupleLoad loaders src).1 = true ↔
      ∃ xs, src = DValue.vtuple xs ∧ List.Forall₂ (fun l x => l x = true) loaders xs) ∧
    (∀ xs, src = DValue.vtuple xs → xs.length = loaders.length →
      (tupleLoad loaders src).2 = List.zipWith (fun l x => l x) loaders xs) ∧
    (∀ xs, src = DValue.vtuple xs → xs.length ≠ loaders.length →
      tupleLoad loaders src = (false, [])) ∧
    ((∀ xs, src ≠ DValue.vtuple xs) → tupleLoad loaders src = (false, [])) := by
  refine ⟨?_, ?_, ?_, ?_⟩
  · cases src with
    | vtuple xs =>
      by_cases h : xs.length = loaders.length
      · simp only [tupleLoad, if_pos h]
        rw [allTrue_zipWith_iff loaders xs h]
        constructor
        · intro hf
          exact ⟨xs, rfl, hf⟩
        · rintro ⟨xs', hx, hf⟩
          cases hx
          exact hf
      · simp only [tupleLoad, if_neg h]
        constructor
        · intro hf
          cases hf
        · rintro ⟨xs', hx, hf⟩
          cases hx
          exact absurd (List.Forall₂.length_eq hf).symm h
    | vnone => simp [tupleLoad]
    | vint n => simp [tupleLoad]
    | vstr bs => simp [tupleLoad]
    | vstrUndecodable => simp [tupleLoad]
    | vlist es => simp [tupleLoad]
  · rintro xs rfl h
    simp [tupleLoad, h]
  · rintro xs rfl h
    simp [tupleLoad, h]
  · intro h
    cases src with
    | vtuple xs => exact absurd rfl (h xs)
    | vnone => rfl
    | vint n => rfl
    | vstr bs => rfl
    | vstrUndecodable => rfl
    | vlist es => rfl

/-- Two concrete element loaders (an integer loader and the character loader)
for exercising the tuple caster. -/
def tupleLoaders : List (DValue → Bool) :=
  [fun v => (int32Load v).isSome, charLoad]

/-- C10 witness: a 2-tuple with a failing second element is loaded with both
element casters attempted (the trace records both positions), and a 1-tuple is
rejected with an empty trace. -/
theorem tuple_load_exhaustive_all_or_nothing_witness :
    (tupleLoad tupleLoaders (DValue.vtuple [DValue.vint 1, DValue.vint 2])).2
        = [true, false] ∧
      tupleLoad tupleLoaders (DValue.vtuple [DValue.vint 1]) = (false, []) :=
  ⟨(tuple_load_exhaustive_all_or_nothing tupleLoaders
      (DValue.vtuple [DValue.vint 1, DValue.vint 2])).2.1
      [DValue.vint 1, DValue.vint 2] rfl (by decide),
   (tuple_load_exhaustive_all_or_nothing tupleLoaders
      (DValue.vtuple [DValue.vint 1])).2.2.1 [DValue.vint 1] rfl (by decide)⟩

/-- C3: the sequence caster's load succeeds exactly when the dynamic value is
the host's list all of whose elements load (first conjunct — in particular a
non-list fails); the first failing element stops the loop, with only the
successful prefix in the internal collection under construction (second
conjunct); and through the external cast entry point a single failing element
fails the whole operation with a raised error, so no partial native vector is
observable (third conjunct). -/
theorem sequence_load_all_or_nothing (α : Type) (el : DValue → Option α)
    (src : DValue) :
    ((vectorLoad el src).1 = true ↔
      ∃ xs, src = DValue.vlist xs ∧ ∀ x ∈ xs, (el x).isSome) ∧
    (∀ pre x post, (∀ y ∈ pre, (el y).isSome) → el x = none →
      vectorLoad el (DValue.vlist (pre ++ x :: post)) = (false, pre.filterMap el)) ∧
    (∀ xs, src = DValue.vlist xs → (∃ x ∈ xs, el x = none) →
      pybindCastVector el src
        = Except.error "Unable to cast Python object to C++ type") := by
  refine ⟨?_, ?_, ?_⟩
  · cases src with
    | vlist xs =>
      rw [show vectorLoad el (DValue.vlist xs) = vectorLoadAux el xs [] from rfl,
        vectorLoadAux_true_iff]
      constructor
      · intro hf
        exact ⟨xs, rfl, hf⟩
      · rintro ⟨xs', hx, hf⟩
        cases hx
        exact hf
    | vnone => simp [vectorLoad]
    | vint n => simp [vectorLoad]
    | vstr bs => simp [vectorLoad]
    | vstrUndecodable => simp [vectorLoad]
    | vtuple es => simp [vectorLoad]
  · intro pre x post hpre hx
    rw [show vectorLoad el (DValue.vlist (pre ++ x :: post))
        = vectorLoadAux el (pre ++ x :: post) [] from rfl,
      vectorLoadAux_stop el pre x post [] hpre hx]
    simp
  · rintro xs rfl hex
    have hfail : (vectorLoad el (DValue.vlist xs)).1 = false := by
      obtain ⟨x, hmem, hx⟩ := hex
      rw [show vectorLoad el (DValue.vlist xs) = vectorLoadAux el xs [] from rfl]
      rcases Bool.eq_false_or_eq_true (vectorLoadAux el xs []).1 with h | h
      · have := (vectorLoadAux_true_iff el xs []).mp h x hmem
        rw [hx] at this
        simp at this
      · exact h
    simp [pybindCastVector, hfail]

/-- C3 witness: loading the dynamic sequence [1, "x", 3] into a native vector
of int32 fails entirely through the external cast entry point. -/
theorem sequence_load_all_or_nothing_witness :
    pybindCastVector int32Load
        (DValue.vlist [DValue.vint 1, DValue.vstr [120], DValue.vint 3])
      = Except.error "Unable to cast Python object to C++ type" :=
  (sequence_load_all_or_nothing Int int32Load
      (DValue.vlist [DValue.vint 1, DValue.vstr [120], DValue.vint 3])).2.2
    [DValue.vint 1, DValue.vstr [120], DValue.vint 3] rfl
    ⟨DValue.vstr [120], by simp, rfl⟩

/-- C6: for every finite native sequence of int32 values, the sequence
caster's cast produces a dynamic sequence that loads back to an equal native
sequence. -/
theorem sequence_cast_load_roundtrip (xs : List Int)
    (h : ∀ x ∈ xs, -2147483648 ≤ x ∧ x < 2147483648) :
    ∃ d, vectorCast (fun n => some (int32Cast n)) xs = some d ∧
      vectorLoad int32Load d = (true, xs) := by
  refine ⟨DValue.vlist (xs.map int32Cast), ?_, ?_⟩
  · simp [vectorCast, vectorCastAux_total]
  · have hsome : ∀ y ∈ xs.map int32Cast, (int32Load y).isSome := by
      intro y hy
      obtain ⟨x, hx, rfl⟩ := List.mem_map.mp hy
      rw [show int32Cast x = DValue.vint x from rfl,
        int32Load_vint x (h x hx).1 (h x hx).2]
      rfl
    rw [show vectorLoad int32Load (DValue.vlist (xs.map int32Cast))
        = vectorLoadAux int32Load (xs.map int32Cast) [] from rfl,
      vectorLoadAux_success int32Load _ [] hsome]
    simp [filterMap_int32Load_map xs h]

/-- C6 witness: [1, 2, 3] round-trips. -/
theorem sequence_cast_load_roundtrip_witness :
    ∃ d, vectorCast (fun n => some (int32Cast n)) [1, 2, 3] = some d ∧
      vectorLoad int32Load d = (true, [1, 2, 3]) :=
  sequence_cast_load_roundtrip [1, 2, 3] (by decide)

/-! ## Helper lemmas: generic heap caster load -/

theorem tryConversions_first (sub : Nat → Nat → Bool) (t : LoadTypeInfo) (s : HObj)
    (pre : List (HObj → Nat → Option HObj)) (c : HObj → Nat → Option HObj)
    (post : List (HObj → Nat → Option HObj)) (temp : HObj)
    (hpre : ∀ c' ∈ pre, ∀ temp', c' s t.ty = some temp' → sub temp'.rtype t.ty = false)
    (hc : c s t.ty = some temp) (hsub : sub temp.rtype t.ty = true) :
    tryConversions sub t s (pre ++ c :: post) = some temp.value := by
  induction pre with
  | nil => simp [tryConversions, loadNoConvert, hc, loadDirect, hsub]
  | cons c' t' ih =>
    have ht' : ∀ c'' ∈ t', ∀ temp', c'' s t.ty = some temp' → sub temp'.rtype t.ty = false :=
      fun c'' h'' => hpre c'' (List.mem_cons_of_mem c' h'')
    cases hc' : c' s t.ty with
    | none => simp [tryConversions, loadNoConvert, hc', ih ht']
    | some temp' =>
      have := hpre c' (List.mem_cons_self c' t') temp' hc'
      simp [tryConversions, loadNoConvert, hc', loadDirect, this, ih ht']

theorem tryConversions_exhaust (sub : Nat → Nat → Bool) (t : LoadTypeInfo) (s : HObj)
    (cs : List (HObj → Nat → Option HObj))
    (h : ∀ c ∈ cs, ∀ temp, c s t.ty = some temp → sub temp.rtype t.ty = false) :
    tryConversions sub t s cs = none := by
  induction cs with
  | nil => rfl
  | cons c t' ih =>
    have ht' : ∀ c' ∈ t', ∀ temp, c' s t.ty = some temp → sub temp.rtype t.ty = false :=
      fun c' h' => h c' (List.mem_cons_of_mem c h')
    cases hc : c s t.ty with
    | none => simp [tryConversions, loadNoConvert, hc, ih ht']
    | some temp =>
      have := h c (List.mem_cons_self c t') temp hc
      simp [tryConversions, loadNoConvert, hc, loadDirect, this, ih ht']

/-! ## Claim theorems: generic heap caster load -/

/-- C7: the generic heap caster's load returns false — with no effect, the
model being pure exactly as the failing paths of the source are — when the
dynamic value is null (first conjunct) or when the constructor found no
registry entry for the target type (second conjunct); and when the value's
runtime type is the registered type or a subtype of it, load succeeds
immediately, binding the output to the existing wrapped native pointer (third
conjunct). -/
theorem heap_load_contract (sub : Nat → Nat → Bool) (ti : Option LoadTypeInfo)
    (src : Option HObj) (convert : Bool) :
    (src = none → genericLoad sub ti src convert = none) ∧
    (ti = none → genericLoad sub ti src convert = none) ∧
    (∀ s t, src = some s → ti = some t → sub s.rtype t.ty = true →
      genericLoad sub ti src convert = some s.value) := by
  refine ⟨?_, ?_, ?_⟩
  · rintro rfl
    cases ti <;> rfl
  · rintro rfl
    cases src <;> rfl
  · rintro s t rfl rfl h
    simp [genericLoad, loadDirect, h]

/-- Runtime-type identity used by the concrete witnesses: `PyType_IsSubtype`
restricted to exact type match. -/
def subEq : Nat → Nat → Bool := fun a b => a == b

/-- A concrete registered type (dynamic type handle 3, no conversions). -/
def tPlain : LoadTypeInfo := ⟨3, []⟩

/-- A concrete dynamic instance of runtime type 3 wrapping pointer 42. -/
def sPlain : HObj := ⟨3, 42⟩

/-- C7 witness: a type-matching instance loads immediately to its wrapped
pointer. -/
theorem heap_load_contract_witness :
    genericLoad subEq (some tPlain) (some sPlain) true = some 42 :=
  (heap_load_contract subEq (some tPlain) (some sPlain) true).2.2 sPlain tPlain
    rfl rfl rfl

/-- C2: on a dynamic value whose runtime type does not match the registered
type, load with conversion enabled tries the type's implicit-conversion
functions in registration order, re-loading each conversion result with
conversion disabled — so a conversion result succeeds only by the direct
runtime-type check, never through further conversions.  The first conversion
whose (non-null) result loads makes load succeed with that result's wrapped
pointer (first conjunct); exhausting the list without success returns false
(second conjunct); and with conversion disabled the same input fails (third
conjunct). -/
theorem heap_load_implicit_conversion_search (sub : Nat → Nat → Bool)
    (t : LoadTypeInfo) (s : HObj) (hdirect : sub s.rtype t.ty = false) :
    (∀ pre c post temp,
      t.implicit_conversions = pre ++ c :: post →
      (∀ c' ∈ pre, ∀ temp', c' s t.ty = some temp' → sub temp'.rtype t.ty = false) →
      c s t.ty = some temp → sub temp.rtype t.ty = true →
      genericLoad sub (some t) (some s) true = some temp.value) ∧
    ((∀ c ∈ t.implicit_conversions, ∀ temp,
        c s t.ty = some temp → sub temp.rtype t.ty = false) →
      genericLoad sub (some t) (some s) true = none) ∧
    genericLoad sub (some t) (some s) false = none := by
  refine ⟨?_, ?_, ?_⟩
  · intro pre c post temp hdec hpre hc hsub
    simp [genericLoad, loadDirect, hdirect, hdec,
      tryConversions_first sub t s pre c post temp hpre hc hsub]
  · intro h
    simp [genericLoad, loadDirect, hdirect, tryConversions_exhaust sub t s _ h]
  · simp [genericLoad, loadDirect, hdirect]

/-- A concrete implicit-conversion function: converts values of runtime type 2
into a fresh value of the registered dynamic type (handle 1), wrapping a new
native pointer. -/
def convB : HObj → Nat → Option HObj :=
  fun s _ty => if s.rtype == 2 then some ⟨1, s.value + 100⟩ else none

/-- A concrete registered type B (dynamic type handle 1) with the single
implicit conversion `convB`. -/
def tB : LoadTypeInfo := ⟨1, [convB]⟩

/-- A concrete dynamic value of foreign runtime type 2 (an A-typed value). -/
def sA : HObj := ⟨2, 5⟩

/-- C2 witness: with the conversion registered, an A-typed value loads into B
with conversion enabled (through the conversion result), and fails with
conversion disabled. -/
theorem heap_load_implicit_conversion_search_witness :
    genericLoad subEq (some tB) (some sA) true = some 105 ∧
    genericLoad subEq (some tB) (some sA) false = none := by
  obtain ⟨h1, _h2, h3⟩ := heap_load_implicit_conversion_search subEq tB sA rfl
  exact ⟨h1 [] convB [] ⟨1, 105⟩ rfl (by intro c' hc'; cases hc') rfl rfl, h3⟩

/-! ## Helper lemmas: association lists and reference counts -/

theorem lookupA_setA_self {κ α : Type} [DecidableEq κ] (k : κ) (v : α)
    (l : List (κ × α)) : lookupA k (setA k v l) = some v := by
  induction l with
  | nil => simp [setA, lookupA]
  | cons e t ih =>
    by_cases h : e.1 = k
    · simp [setA, h, lookupA]
    · simp [setA, h, lookupA, ih]

theorem lookupA_setA_ne {κ α : Type} [DecidableEq κ] (k k' : κ) (v : α)
    (l : List (κ × α)) (h : k' ≠ k) : lookupA k (setA k' v l) = lookupA k l := by
  induction l with
  | nil => simp [setA, lookupA, h]
  | cons e t ih =>
    by_cases he : e.1 = k'
    · simp [setA, he, lookupA, h, ih]
    · simp [setA, he, lookupA, ih]

theorem lookupA_mem {κ α : Type} [DecidableEq κ] (k : κ) (l : List (κ × α)) (v : α)
    (h : lookupA k l = some v) : (k, v) ∈ l := by
  induction l with
  | nil => cases h
  | cons e t ih =>
    rcases e with ⟨k', v'⟩
    by_cases hk : k' = k
    · subst hk
      simp [lookupA] at h
      subst h
      exact List.mem_cons_self _ _
    · simp only [lookupA, if_neg hk] at h
      exact List.mem_cons_of_mem _ (ih h)

theorem mem_setA {κ α : Type} [DecidableEq κ] (e : κ × α) (k : κ) (v : α)
    (l : List (κ × α)) (h : e ∈ setA k v l) : e = (k, v) ∨ e ∈ l := by
  induction l with
  | nil =>
    simp [setA] at h
    exact Or.inl h
  | cons f t ih =>
    by_cases hf : f.1 = k
    · simp only [setA, if_pos hf] at h
      rcases List.mem_cons.mp h with rfl | hm
      · exact Or.inl rfl
      · exact Or.inr (List.mem_cons_of_mem _ hm)
    · simp only [setA, if_neg hf] at h
      rcases List.mem_cons.mp h with rfl | hm
      · exact Or.inr (List.mem_cons_self _ _)
      · rcases ih hm with h1 | h2
        · exact Or.inl h1
        · exact Or.inr (List.mem_cons_of_mem _ h2)

theorem lookupA_mapRc (f : Nat → Nat) (j i : Nat) (h : List (Nat × PyObj)) :
    lookupA i (mapRc f j h)
      = if i = j then (lookupA i h).map (fun o => { o with rc := f o.rc })
        else lookupA i h := by
  induction h with
  | nil => by_cases hij : i = j <;> simp [mapRc, lookupA, hij]
  | cons e t ih =>
    simp only [mapRc, List.map_cons] at ih ⊢
    by_cases hej : e.1 = j
    · by_cases hei : e.1 = i
      · have hij : i = j := hei ▸ hej
        subst hij
        simp [lookupA, hej, hei]
      · have hij : i ≠ j := fun hh => hei (by rw [hej, hh])
        simp [lookupA, hej, hei, hij, Ne.symm hij, ih]
    · by_cases hei : e.1 = i
      · have hij : i ≠ j := fun hh => hej (hei.trans hh)
        simp [lookupA, hej, hei, hij, Ne.symm hij]
      · simp [lookupA, hej, hei, ih]

theorem lookupA_increfObj (j i : Nat) (h : List (Nat × PyObj)) :
    lookupA i (increfObj j h)
      = if i = j then (lookupA i h).map (fun o => { o with rc := o.rc + 1 })
        else lookupA i h := by
  have := lookupA_mapRc (fun n => n + 1) j i h
  simpa [increfObj] using this

theorem lookupA_xdecrefObj (j i : Nat) (h : List (Nat × PyObj)) :
    lookupA i (xdecrefObj (some j) h)
      = if i = j then (lookupA i h).map (fun o => { o with rc := o.rc - 1 })
        else lookupA i h := by
  have := lookupA_mapRc (fun n => n - 1) j i h
  simpa [xdecrefObj] using this

theorem xdecref_comm (r r' : Option Nat) (h : List (Nat × PyObj)) :
    xdecrefObj r (xdecrefObj r' h) = xdecrefObj r' (xdecrefObj r h) := by
  cases r with
  | none => rfl
  | some i =>
    cases r' with
    | none => rfl
    | some j =>
      simp only [xdecrefObj, mapRc, List.map_map]
      congr 1
      funext e
      rcases e with ⟨k, o⟩
      simp only [Function.comp]
      by_cases h1 : k = i
      · subst h1
        by_cases h2 : k = j
        · subst h2
          simp
        · simp [h2]
      · by_cases h2 : k = j
        · subst h2
          simp [h1]
        · simp [h1, h2]

theorem foldl_xdecref_pull (rs : List (Option Nat)) (r : Option Nat)
    (h : List (Nat × PyObj)) :
    rs.foldl (fun h r => xdecrefObj r h) (xdecrefObj r h)
      = xdecrefObj r (rs.foldl (fun h r => xdecrefObj r h) h) := by
  induction rs generalizing h with
  | nil => rfl
  | cons r' t ih =>
    simp only [List.foldl_cons]
    rw [xdecref_comm r' r h, ih]

theorem xdecref_incref (i : Nat) (h : List (Nat × PyObj)) :
    xdecrefObj (some i) (increfObj i h) = h := by
  induction h with
  | nil => rfl
  | cons e t ih =>
    simp only [xdecrefObj, increfObj, mapRc, List.map_cons] at ih ⊢
    rw [ih]
    rcases e with ⟨k, o⟩
    by_cases h1 : k = i
    · subst h1
      simp
    · simp [h1]

/-! ## Claim theorems: generic heap caster cast -/

/-- C1: for a non-null native pointer present in the Instance Registry, when
the self-reference exception does not apply, cast returns the registered
dynamic object and the only state change is that object's reference count
increment — the registries, the allocation counters, the native heap, the
error slot, everything else is untouched, so no new dynamic object is
allocated (first conjunct).  Hence casting the same pointer twice with
reference or take_ownership policy (under a registered type) yields the same
dynamic object both times (second conjunct). -/
theorem cast_identity_preserved (tn : Nat) (copyable : Bool) (st : CastState)
    (p : Nat) :
    (∀ (policy : RVP) (parent : Option Nat) (objId : Nat),
      lookupA p st.registered_instances = some objId →
      ¬(policy = RVP.reference_internal ∧ parentValue st parent = some p) →
      type_caster_cast tn copyable (some p) policy parent st
        = (Except.ok (some objId), { st with heap := increfObj objId st.heap })) ∧
    (∀ policy : RVP, policy = RVP.reference ∨ policy = RVP.take_ownership →
      (lookupA tn st.registered_types).isSome →
      ∃ i, (type_caster_cast tn copyable (some p) policy none st).1
          = Except.ok (some i) ∧
        (type_caster_cast tn copyable (some p) policy none
            (type_caster_cast tn copyable (some p) policy none st).2).1
          = Except.ok (some i)) := by
  constructor
  · intro policy parent objId hcache hdc
    simp [type_caster_cast, hcache, hdc]
  · intro policy hpol hreg
    obtain ⟨ti, hti⟩ := Option.isSome_iff_exists.mp hreg
    cases hcache : lookupA p st.registered_instances with
    | some objId =>
      refine ⟨objId, ?_, ?_⟩ <;>
        rcases hpol with rfl | rfl <;>
          simp [type_caster_cast, hcache]
    | none =>
      refine ⟨st.nextId, ?_, ?_⟩ <;>
        rcases hpol with rfl | rfl <;>
          simp [type_caster_cast, hcache, castFresh, hti,
            handle_return_value_policy, lookupA_setA_self]

/-- A concrete interpreter state with type 1 registered and native pointer 4
already wrapped by the registered dynamic object 9 (reference count 2). -/
def stIdent : CastState :=
  { registered_types := [(1, ⟨1⟩)],
    registered_instances := [(4, 9)],
    heap := [(9, { rc := 2, value := 4, owned := false, parent := none, rtype := 1 })],
    nheap := [],
    nextId := 10,
    nextPtr := 5,
    err := none,
    called := false }

/-- C1 witness: casting cached pointer 4 with take_ownership policy returns
the registered object 9, bumping only its reference count. -/
theorem cast_identity_preserved_witness :
    type_caster_cast 1 true (some 4) RVP.take_ownership none stIdent
      = (Except.ok (some 9), { stIdent with heap := increfObj 9 stIdent.heap }) :=
  (cast_identity_preserved 1 true stIdent 4).1 RVP.take_ownership none 9 rfl
    (by intro hc; exact absurd hc.1 (by decide))

/-- C5 counterexample: a cast of a non-copyable type under the copy policy
whose pointer is already in the Instance Registry returns the cached object
and raises no error condition at all (neither an exception nor a host-level
error), contradicting the claim that every such cast fails fatally. -/
def stNC : CastState :=
  { registered_types := [(7, ⟨2⟩)],
    registered_instances := [(1, 5)],
    heap := [(5, { rc := 1, value := 1, owned := false, parent := none, rtype := 2 })],
    nheap := [(1, 7)],
    nextId := 6,
    nextPtr := 2,
    err := none,
    called := false }

/-- C5 counterexample theorem: on `stNC` the copy-policy cast of non-copyable
type 7 at cached pointer 1 succeeds with the cached object 5 and leaves the
error slot clear — no error condition is raised. -/
theorem copy_policy_noncopyable_cached_no_error :
    (type_caster_cast 7 false (some 1) RVP.copy none stNC).1 = Except.ok (some 5) ∧
    (type_caster_cast 7 false (some 1) RVP.copy none stNC).2.err = none :=
  ⟨rfl, rfl⟩

/-- C5 (amended): for every cast of a native value of a non-copyable type
under the copy policy that reaches policy application — i.e. whose pointer is
not already present in the Instance Registry (and whose type is registered) —
the operation throws `cast_error`: the error is raised as an exception, not
swallowed, and is not a recoverable load-style false return. -/
theorem copy_policy_noncopyable_raises (tn : Nat) (parent : Option Nat)
    (st : CastState) (p : Nat) (ti : TypeInfoC)
    (hmiss : lookupA p st.registered_instances = none)
    (hty : lookupA tn st.registered_types = some ti) :
    (type_caster_cast tn false (some p) RVP.copy parent st).1
      = Except.error "return_value_policy = copy, but the object is non-copyable!" := by
  simp [type_caster_cast, hmiss, castFresh, hty, handle_return_value_policy]

/-- A concrete state with non-copyable type 7 registered and nothing cached. -/
def stNCFresh : CastState :=
  { registered_types := [(7, ⟨2⟩)],
    registered_instances := [],
    heap := [],
    nheap := [(1, 7)],
    nextId := 1,
    nextPtr := 2,
    err := none,
    called := false }

/-- C5 witness: the copy-policy cast of the non-copyable type at an uncached
pointer throws. -/
theorem copy_policy_noncopyable_raises_witness :
    (type_caster_cast 7 false (some 1) RVP.copy none stNCFresh).1
      = Except.error "return_value_policy = copy, but the object is non-copyable!" :=
  copy_policy_noncopyable_raises 7 none stNCFresh 1 ⟨2⟩ rfl rfl

/-- C8 counterexample: a cast of a copy-constructible type under the copy
policy whose pointer is already in the Instance Registry returns the cached
object, whose wrapped pointer is the original native pointer itself — no copy
is allocated — so mutating the original native value does change the dynamic
object's wrapped value. -/
def stCopyCached : CastState :=
  { registered_types := [(3, ⟨1⟩)],
    registered_instances := [(1, 5)],
    heap := [(5, { rc := 1, value := 1, owned := false, parent := none, rtype := 1 })],
    nheap := [(1, 7)],
    nextId := 6,
    nextPtr := 2,
    err := none,
    called := false }

/-- C8 counterexample theorem: on `stCopyCached` the copy-policy cast at
cached pointer 1 yields object 5 whose wrapped pointer is 1 — the original,
not a fresh copy — and mutating the original native value at pointer 1 from 7
to 99 changes the value the dynamic object wraps. -/
theorem copy_policy_cached_not_independent :
    (type_caster_cast 3 true (some 1) RVP.copy none stCopyCached).1
      = Except.ok (some 5) ∧
    (lookupA 5 (type_caster_cast 3 true (some 1) RVP.copy none stCopyCached).2.heap).map
        PyObj.value = some 1 ∧
    lookupA 1 (type_caster_cast 3 true (some 1) RVP.copy none stCopyCached).2.nheap
      = some 7 ∧
    lookupA 1 (mutateNative 1 99
        (type_caster_cast 3 true (some 1) RVP.copy none stCopyCached).2).nheap
      = some 99 :=
  ⟨rfl, rfl, rfl, rfl⟩

/-- C8 (amended): for every cast of a copy-constructible native value under
the copy policy whose pointer is not already present in the Instance Registry
(type registered, pointer below the native allocation frontier), the resulting
dynamic object's wrapped pointer is a newly allocated native pointer, distinct
from the original, holding a copy of the original's value; mutating the
original native value afterwards does not change the value stored at the
wrapped pointer. -/
theorem copy_policy_fresh_copy_independent (tn : Nat) (parent : Option Nat)
    (st : CastState) (p : Nat) (ti : TypeInfoC)
    (hmiss : lookupA p st.registered_instances = none)
    (hty : lookupA tn st.registered_types = some ti)
    (hfresh : p < st.nextPtr) :
    ∃ id q,
      (type_caster_cast tn true (some p) RVP.copy parent st).1
        = Except.ok (some id) ∧
      (lookupA id (type_caster_cast tn true (some p) RVP.copy parent st).2.heap).map
          PyObj.value = some q ∧
      q ≠ p ∧
      lookupA q (type_caster_cast tn true (some p) RVP.copy parent st).2.nheap
        = some ((lookupA p st.nheap).getD 0) ∧
      ∀ w : Int,
        lookupA q (mutateNative p w
            (type_caster_cast tn true (some p) RVP.copy parent st).2).nheap
          = lookupA q (type_caster_cast tn true (some p) RVP.copy parent st).2.nheap := by
  have hne : st.nextPtr ≠ p := Nat.ne_of_gt hfresh
  refine ⟨st.nextId, st.nextPtr, ?_, ?_, hne, ?_, ?_⟩ <;>
    simp [type_caster_cast, hmiss, castFresh, hty, handle_return_value_policy,
      mutateNative, lookupA_setA_self, lookupA_setA_ne _ _ _ _ hne,
      lookupA_setA_ne _ _ _ _ (Nat.ne_of_lt hfresh)]

/-- A concrete state with copyable type 3 registered, nothing cached, and the
native value 42 stored at pointer 1. -/
def stCopyFresh : CastState :=
  { registered_types := [(3, ⟨1⟩)],
    registered_instances := [],
    heap := [],
    nheap := [(1, 42)],
    nextId := 1,
    nextPtr := 2,
    err := none,
    called := false }

/-- C8 witness: the copy-policy cast at uncached pointer 1 produces an object
wrapping a fresh pointer holding a copy of the native value, unaffected by
later mutation of the original. -/
theorem copy_policy_fresh_copy_independent_witness :
    ∃ id q,
      (type_caster_cast 3 true (some 1) RVP.copy none stCopyFresh).1
        = Except.ok (some id) ∧
      (lookupA id (type_caster_cast 3 true (some 1) RVP.copy none stCopyFresh).2.heap).map
          PyObj.value = some q ∧
      q ≠ 1 ∧
      lookupA q (type_caster_cast 3 true (some 1) RVP.copy none stCopyFresh).2.nheap
        = some ((lookupA 1 stCopyFresh.nheap).getD 0) ∧
      ∀ w : Int,
        lookupA q (mutateNative 1 w
            (type_caster_cast 3 true (some 1) RVP.copy none stCopyFresh).2).nheap
          = lookupA q (type_caster_cast 3 true (some 1) RVP.copy none stCopyFresh).2.nheap :=
  copy_policy_fresh_copy_independent 3 none stCopyFresh 1 ⟨1⟩ rfl rfl (by decide)

/-! ## Claim theorems: call marshalling -/

/-- The fresh instance object built by the allocation tail of the caster
(`cast.h` lines 81-84): reference count 1, wrapping the native pointer, owned,
no parent, of the registered dynamic type. -/
def freshInst (p : Nat) (ti : TypeInfoC) : PyObj :=
  { rc := 1, value := p, owned := true, parent := none, rtype := ti.ty }

theorem mem_mapRc (f : Nat → Nat) (j : Nat) (h : List (Nat × PyObj))
    (e : Nat × PyObj) (he : e ∈ mapRc f j h) : ∃ e0 ∈ h, e.1 = e0.1 := by
  simp only [mapRc, List.mem_map] at he
  obtain ⟨e0, he0, rfl⟩ := he
  refine ⟨e0, he0, ?_⟩
  by_cases h0 : e0.1 = j <;> simp [h0]

theorem castArg_null (tn : Nat) (cb : Bool) (st : CastState) :
    castArg (tn, cb, none) st = (some 0, { st with heap := increfObj 0 st.heap }) :=
  rfl

theorem castArg_hit (tn : Nat) (cb : Bool) (p : Nat) (st : CastState) (i : Nat)
    (hl : lookupA p st.registered_instances = some i) :
    castArg (tn, cb, some p) st = (some i, { st with heap := increfObj i st.heap }) := by
  simp [castArg, type_caster_cast, hl]

theorem castArg_fresh (tn : Nat) (cb : Bool) (p : Nat) (st : CastState)
    (ti : TypeInfoC) (hl : lookupA p st.registered_instances = none)
    (ht : lookupA tn st.registered_types = some ti) :
    castArg (tn, cb, some p) st = (some st.nextId,
      { st with
        registered_instances := setA p st.nextId st.registered_instances,
        heap := setA st.nextId (freshInst p ti) st.heap,
        nextId := st.nextId + 1 }) := by
  simp [castArg, type_caster_cast, hl, castFresh, ht, handle_return_value_policy,
    freshInst]

theorem castArg_miss (tn : Nat) (cb : Bool) (p : Nat) (st : CastState)
    (hl : lookupA p st.registered_instances = none)
    (ht : lookupA tn st.registered_types = none) :
    castArg (tn, cb, some p) st
      = (none, { st with err := some ("Unregistered type : " ++ Nat.repr tn) }) := by
  simp [castArg, type_caster_cast, hl, castFresh, ht]

/-- Releasing one marshalled result whose cast incremented the count of an
existing object (a cache hit, or `Py_None` for a null pointer): the
`Py_XDECREF` cancels the increment exactly, so restoration and
released-to-zero transfer across the step. -/
theorem release_incref_step (j : Nat) (stH Hp : List (Nat × PyObj))
    (ha' : ∀ i o, lookupA i (increfObj j stH) = some o → lookupA i Hp = some o)
    (hb' : ∀ i o, lookupA i Hp = some o → lookupA i (increfObj j stH) = none →
      o.rc = 0) :
    (∀ i o, lookupA i stH = some o →
      lookupA i (xdecrefObj (some j) Hp) = some o) ∧
    (∀ i o, lookupA i (xdecrefObj (some j) Hp) = some o →
      lookupA i stH = none → o.rc = 0) := by
  constructor
  · intro i o hio
    rw [lookupA_xdecrefObj]
    by_cases hij : i = j
    · subst hij
      have h1 : lookupA i (increfObj i stH) = some { o with rc := o.rc + 1 } := by
        rw [lookupA_increfObj, if_pos rfl, hio]
        rfl
      rw [if_pos rfl, ha' i _ h1]
      simp
    · rw [if_neg hij]
      refine ha' i o ?_
      rw [lookupA_increfObj, if_neg hij]
      exact hio
  · intro i o hfo hnone
    rw [lookupA_xdecrefObj] at hfo
    by_cases hij : i = j
    · subst hij
      rw [if_pos rfl] at hfo
      rcases ho' : lookupA i Hp with _ | o'
      · rw [ho'] at hfo
        cases hfo
      · rw [ho'] at hfo
        have hz : lookupA i (increfObj i stH) = none := by
          rw [lookupA_increfObj, if_pos rfl, hnone]
          rfl
        have hrc := hb' i o' ho' hz
        simp only [Option.map_some', Option.some.injEq] at hfo
        rw [← hfo]
        simp [hrc]
    · rw [if_neg hij] at hfo
      have hz : lookupA i (increfObj j stH) = none := by
        rw [lookupA_increfObj, if_neg hij]
        exact hnone
      exact hb' i o hfo hz

/-- Releasing one marshalled result whose cast freshly allocated a wrapper
object (initial count 1) at an id above the allocation frontier: the
`Py_XDECREF` leaves the fresh wrapper at count 0 and every pre-existing
object untouched. -/
theorem release_fresh_step (id : Nat) (inst0 : PyObj) (hrc : inst0.rc = 1)
    (stH Hp : List (Nat × PyObj)) (hid : ∀ e ∈ stH, e.1 < id)
    (ha' : ∀ i o, lookupA i (setA id inst0 stH) = some o → lookupA i Hp = some o)
    (hb' : ∀ i o, lookupA i Hp = some o → lookupA i (setA id inst0 stH) = none →
      o.rc = 0) :
    (∀ i o, lookupA i stH = some o →
      lookupA i (xdecrefObj (some id) Hp) = some o) ∧
    (∀ i o, lookupA i (xdecrefObj (some id) Hp) = some o →
      lookupA i stH = none → o.rc = 0) := by
  constructor
  · intro i o hio
    have hine : i ≠ id := Nat.ne_of_lt (hid (i, o) (lookupA_mem i stH o hio))
    rw [lookupA_xdecrefObj, if_neg hine]
    refine ha' i o ?_
    rw [lookupA_setA_ne _ _ _ _ (Ne.symm hine)]
    exact hio
  · intro i o hfo hnone
    rw [lookupA_xdecrefObj] at hfo
    by_cases hij : i = id
    · subst hij
      rw [if_pos rfl] at hfo
      have h2 := ha' i inst0 (lookupA_setA_self i inst0 stH)
      rw [h2] at hfo
      simp only [Option.map_some', Option.some.injEq] at hfo
      rw [← hfo]
      simp [hrc]
    · rw [if_neg hij] at hfo
      have hz : lookupA i (setA id inst0 stH) = none := by
        rw [lookupA_setA_ne _ _ _ _ (Ne.symm hij)]
        exact hnone
      exact hb' i o hfo hz

/-- The argument-array initialisation of `handle::call` followed by the
failure-path `Py_XDECREF` of every produced slot, for an arbitrary argument
list over a well-formed state (heap ids below the allocation frontier): the
type registry and the invocation flag are untouched; every object of the
initial heap is restored exactly (each cache-hit increment is cancelled by the
matching decrement); and every object the marshalling freshly allocated ends
with reference count 0 — no produced dynamic value remains referenced. -/
theorem marshal_release (args : List ArgSpec) (st : CastState)
    (hwf : ∀ e ∈ st.heap, e.1 < st.nextId) :
    (marshal args st).2.registered_types = st.registered_types ∧
    (marshal args st).2.called = st.called ∧
    (∀ i o, lookupA i st.heap = some o →
      lookupA i ((marshal args st).1.foldl (fun h r => xdecrefObj r h)
        (marshal args st).2.heap) = some o) ∧
    (∀ i o,
      lookupA i ((marshal args st).1.foldl (fun h r => xdecrefObj r h)
        (marshal args st).2.heap) = some o →
      lookupA i st.heap = none → o.rc = 0) := by
  induction args generalizing st with
  | nil =>
    refine ⟨rfl, rfl, fun i o hio => hio, fun i o hio hnone => ?_⟩
    simp only [marshal, List.foldl_nil] at hio
    rw [hio] at hnone
    cases hnone
  | cons a t ih =>
    obtain ⟨tn, cb, src⟩ := a
    rcases src with _ | p
    · -- null pointer argument: Py_INCREF(Py_None)
      have hc := castArg_null tn cb st
      have hmar : marshal ((tn, cb, none) :: t) st
          = (some 0 :: (marshal t { st with heap := increfObj 0 st.heap }).1,
            (marshal t { st with heap := increfObj 0 st.heap }).2) := by
        simp [marshal, hc]
      have hwf1 : ∀ e ∈ increfObj 0 st.heap, e.1 < st.nextId := by
        intro e he
        obtain ⟨e0, he0, hk⟩ := mem_mapRc _ 0 st.heap e he
        rw [hk]
        exact hwf e0 he0
      obtain ⟨e1, e2, e3, e4⟩ := ih { st with heap := increfObj 0 st.heap } hwf1
      rw [hmar]
      simp only [List.foldl_cons]
      rw [foldl_xdecref_pull]
      obtain ⟨s1, s2⟩ := release_incref_step 0 st.heap _ e3 e4
      exact ⟨e1, e2, s1, s2⟩
    · rcases hl : lookupA p st.registered_instances with _ | j
      · rcases ht : lookupA tn st.registered_types with _ | ti
        · -- unregistered type: the cast fails, state change is the raised error
          have hc := castArg_miss tn cb p st hl ht
          have hmar : marshal ((tn, cb, some p) :: t) st
              = (none :: (marshal t { st with
                    err := some ("Unregistered type : " ++ Nat.repr tn) }).1,
                (marshal t { st with
                    err := some ("Unregistered type : " ++ Nat.repr tn) }).2) := by
            simp [marshal, hc]
          obtain ⟨e1, e2, e3, e4⟩ :=
            ih { st with err := some ("Unregistered type : " ++ Nat.repr tn) } hwf
          rw [hmar]
          simp only [List.foldl_cons]
          exact ⟨e1, e2, e3, e4⟩
        · -- uncached pointer of a registered type: a fresh wrapper is allocated
          have hc := castArg_fresh tn cb p st ti hl ht
          have hmar : marshal ((tn, cb, some p) :: t) st
              = (some st.nextId :: (marshal t { st with
                    registered_instances := setA p st.nextId st.registered_instances,
                    heap := setA st.nextId (freshInst p ti) st.heap,
                    nextId := st.nextId + 1 }).1,
                (marshal t { st with
                    registered_instances := setA p st.nextId st.registered_instances,
                    heap := setA st.nextId (freshInst p ti) st.heap,
                    nextId := st.nextId + 1 }).2) := by
            simp [marshal, hc]
          have hwf1 : ∀ e ∈ setA st.nextId (freshInst p ti) st.heap,
              e.1 < st.nextId + 1 := by
            intro e he
            rcases mem_setA e _ _ _ he with rfl | hm
            · exact Nat.lt_succ_self _
            · exact Nat.lt_succ_of_lt (hwf e hm)
          obtain ⟨e1, e2, e3, e4⟩ := ih { st with
              registered_instances := setA p st.nextId st.registered_instances,
              heap := setA st.nextId (freshInst p ti) st.heap,
              nextId := st.nextId + 1 } hwf1
          rw [hmar]
          simp only [List.foldl_cons]
          rw [foldl_xdecref_pull]
          obtain ⟨s1, s2⟩ := release_fresh_step st.nextId (freshInst p ti) rfl
            st.heap _ hwf e3 e4
          exact ⟨e1, e2, s1, s2⟩
      · -- cache hit: the cached object is returned, its count incremented
        have hc := castArg_hit tn cb p st j hl
        have hmar : marshal ((tn, cb, some p) :: t) st
            = (some j :: (marshal t { st with heap := increfObj j st.heap }).1,
              (marshal t { st with heap := increfObj j st.heap }).2) := by
          simp [marshal, hc]
        have hwf1 : ∀ e ∈ increfObj j st.heap, e.1 < st.nextId := by
          intro e he
          obtain ⟨e0, he0, hk⟩ := mem_mapRc _ j st.heap e he
          rw [hk]
          exact hwf e0 he0
        obtain ⟨e1, e2, e3, e4⟩ := ih { st with heap := increfObj j st.heap } hwf1
        rw [hmar]
        simp only [List.foldl_cons]
        rw [foldl_xdecref_pull]
        obtain ⟨s1, s2⟩ := release_incref_step j st.heap _ e3 e4
        exact ⟨e1, e2, s1, s2⟩

/-- C4: for every `handle::call` over a well-formed interpreter state (heap
ids below the allocation frontier) in which some argument fails to cast, the
whole call fails with the thrown `cast_error` before any invocation — the
invocation flag is untouched, so the callable is never invoked — and every
dynamic value produced for the arguments is released: each object of the
initial heap ends with exactly its initial reference count (a cache-hit
increment for an earlier argument is cancelled by the matching release), and
every wrapper object the marshalling freshly allocated ends with reference
count 0, so no produced dynamic value remains referenced and no partial
argument list is ever passed to the callable. -/
theorem call_marshalling_atomic (args : List ArgSpec) (st : CastState)
    (hwf : ∀ e ∈ st.heap, e.1 < st.nextId)
    (hfail : (marshal args st).1.any Option.isNone = true) :
    ∃ st', handle_call args st
        = (Except.error
            "handle::call(): unable to convert input arguments to Python objects",
          st') ∧
      st'.called = st.called ∧
      st'.registered_types = st.registered_types ∧
      (∀ i o, lookupA i st.heap = some o → lookupA i st'.heap = some o) ∧
      (∀ i o, lookupA i st'.heap = some o → lookupA i st.heap = none →
        o.rc = 0) := by
  obtain ⟨e1, e2, e3, e4⟩ := marshal_release args st hwf
  refine ⟨{ (marshal args st).2 with
      heap := (marshal args st).1.foldl (fun h r => xdecrefObj r h)
        (marshal args st).2.heap }, ?_, e2, e1, e3, e4⟩
  simp [handle_call, hfail]

/-- A concrete interpreter state for the call-marshalling scenario: types 1
and 3 are registered, native pointer 10 is cached as dynamic object 3, and
native pointer 12 is not cached. -/
def stCall : CastState :=
  { registered_types := [(1, ⟨1⟩), (3, ⟨2⟩)],
    registered_instances := [(10, 3)],
    heap := [(3, { rc := 1, value := 10, owned := false, parent := none, rtype := 1 })],
    nheap := [],
    nextId := 4,
    nextPtr := 13,
    err := none,
    called := false }

/-- The three arguments of the witness call: the first casts via a cache hit
(pointer 10), the second fails (pointer 11 of unregistered type 2), the third
succeeds by freshly allocating a wrapper (uncached pointer 12 of registered
type 3). -/
def argsCall : List ArgSpec :=
  [(1, true, some 10), (2, true, some 11), (3, true, some 12)]

/-- C4 witness: with the second of three arguments failing to cast, the call
raises, the callable is never invoked, the cached first argument's object is
restored to its initial reference count, and the third argument's freshly
allocated wrapper is released to reference count 0. -/
theorem call_marshalling_atomic_witness :
    ∃ st', handle_call argsCall stCall
        = (Except.error
            "handle::call(): unable to convert input arguments to Python objects",
          st') ∧
      st'.called = stCall.called ∧
      st'.registered_types = stCall.registered_types ∧
      (∀ i o, lookupA i stCall.heap = some o → lookupA i st'.heap = some o) ∧
      (∀ i o, lookupA i st'.heap = some o → lookupA i stCall.heap = none →
        o.rc = 0) :=
  call_marshalling_atomic argsCall stCall (by decide) (by decide)

end PybindCast
